import Mathlib

set_option maxHeartbeats 1000000

/-!
Verification development for the mypyvy driver (src/src/mypyvy.py) and the
updr invariant-inference engine it drives, checked against the system
specification. The driver code (argument handling, verify, bmc, do_updr,
main) is embedded directly from mypyvy.py; the search engine itself
(updr.Frames, logic.py) is not part of the provided sources, so the
corresponding definitions are modelled from the specification and are marked
as such in their doc comments.
-/

/-- Modelled from the spec: an abstract first-order transition system, the
missing Program Model collaborator (syntax.py/logic.py are not in src):
an initial-condition formula, a transition relation (the disjunction of all
guarded transition definitions), and a safety property, all read as predicates
over an abstract state type. -/
structure TransitionSystem (σ : Type) where
  init : σ → Prop
  tr : σ → σ → Prop
  safe : σ → Prop

/-- A state satisfies a frame when it satisfies every predicate in the
frame's predicate set, with respect to a satisfaction relation for the
abstract predicate type. -/
def frameSat {σ P : Type} (sat : σ → P → Prop) (s : σ) (f : List P) : Prop :=
  ∀ p ∈ f, sat s p

/-- Two predicate sets (represented as lists) are set-equal: each is
contained in the other. -/
def setEqB {P : Type} [DecidableEq P] (a b : List P) : Bool :=
  a.all (fun p => b.contains p) && b.all (fun p => a.contains p)

/-- Some two consecutive frames in the frame sequence contain identical
predicate sets. -/
def adjacentEqual {P : Type} [DecidableEq P] : List (List P) → Bool
  | [] => false
  | [_] => false
  | a :: b :: rest => setEqB a b || adjacentEqual (b :: rest)

/-- Terminal and non-terminal states of the updr search loop, per the
specification of the Frame Manager state machine. -/
inductive UpdrVerdict
  | Proved
  | Disproved
  | Searching
  deriving DecidableEq

/-- Modelled from the spec: the fixpoint test of the search loop
(updr.Frames.search lives in updr.py, which is not among the provided
sources). A fixpoint is reached when two consecutive frames contain identical
predicate sets, and the search then reports Proved. -/
def updrFixpointVerdict {P : Type} [DecidableEq P] (fs : List (List P)) : UpdrVerdict :=
  if adjacentEqual fs then UpdrVerdict.Proved else UpdrVerdict.Searching

/-- Modelled from the spec: diagram extraction (updr.py / logic.py are not
among the provided sources). Over a fixed alphabet of positive and negative
ground literals over the chosen representative elements, the diagram of a
model collects exactly the literals that hold in the model, so the
originating model satisfies its own diagram by construction. -/
def diagram_of {σ L : Type} (evalLit : σ → L → Bool) (alphabet : List L) (m : σ) : List L :=
  alphabet.filter (fun l => evalLit m l)

/-- Modelled from the spec: brute-force literal-removal minimization. Walk
the literals of the diagram; for each literal, re-check (via a solver query,
abstracted as the check oracle) whether the diagram without it still refutes
the region it must exclude; drop it if so, keep it otherwise. -/
def bruteForceMinimize {L : Type} (check : List L → Bool) : List L → List L → List L
  | kept, [] => kept
  | kept, l :: rest =>
      if check (kept ++ rest) then bruteForceMinimize check kept rest
      else bruteForceMinimize check (kept ++ [l]) rest

/-- Modelled from the spec: unsat-core-directed minimization, which keeps
exactly the literals the solver actually used in refuting the diagram's
negation (the core) and drops the rest in one pass. -/
def coreMinimize {L : Type} [DecidableEq L] (core : List L) (d : List L) : List L :=
  d.filter (fun l => core.contains l)

/-- The two diagram minimization strategies, selected by the
use-z3-unsat-cores option of the updr subcommand (mypyvy.py lines 740-741
declares the flag; do_updr lines 49-50 configure the solver accordingly). -/
inductive MinStrategy
  | bruteForce
  | unsatCores

/-- Modelled from the spec: generalize extracts the diagram of the bad-state
model and minimizes it with the selected strategy; the returned predicate is
the universally-quantified negation of the minimized diagram. -/
def generalize {σ L : Type} [DecidableEq L] (strategy : MinStrategy)
    (check : List L → Bool) (core : List L)
    (evalLit : σ → L → Bool) (alphabet : List L) (m : σ) : List L :=
  match strategy with
  | MinStrategy.bruteForce => bruteForceMinimize check [] (diagram_of evalLit alphabet m)
  | MinStrategy.unsatCores => coreMinimize core (diagram_of evalLit alphabet m)

/-- The blocking clause obtained from a minimized diagram body excludes a
state exactly when the state satisfies every literal of the body: the
predicate is the negation of the (existentially closed) conjunction, so it is
false at such a state and in particular does not permit it. -/
def blocksState {σ L : Type} (evalLit : σ → L → Bool) (m : σ) (d : List L) : Bool :=
  d.all (fun l => evalLit m l)

/-- Concrete one-bit transition system used to instantiate the frame
invariants on a closed input. -/
def boolTS : TransitionSystem Bool where
  init s := s = true
  tr s s' := s' = s
  safe s := s = true

/-- Concrete satisfaction relation for the one-bit system: every abstract
predicate index denotes the clause that the bit is set. -/
def boolSat (s : Bool) (_ : Nat) : Prop := s = true

/-- JSON values, as produced by the json module on the objects the driver
builds (strings, numbers, booleans, arrays, objects). -/
inductive JSONVal
  | str (s : String)
  | nat (n : Nat)
  | bool (b : Bool)
  | arr (elems : List JSONVal)
  | obj (fields : List (String × JSONVal))

/-- Look up a key in a JSON object (first binding wins, as in the dicts the
driver builds, whose keys are distinct). -/
def jsonField (j : JSONVal) (k : String) : Option JSONVal :=
  match j with
  | JSONVal.obj fields => (fields.find? (fun p => p.1 == k)).map (fun p => p.2)
  | _ => none

/-- A declared relation symbol (only its name is consumed by the driver). -/
structure RelationDecl where
  name : String

/-- A declared constant symbol. -/
structure ConstantDecl where
  name : String

/-- A declared function symbol. -/
structure FunctionDecl where
  name : String

/-- A declared sort. -/
structure SortDecl where
  name : String

/-- An invariant declaration as consumed by json_counterexample: optional
name, optional source line number (from its token), and the printed formula
(str of inv.expr). -/
structure InvariantDecl where
  name : Option String
  lineno : Option Nat
  formula : String

/-- Relation interpretation table: per relation, the list of (argument
tuple, truth value) pairs. -/
abbrev RT := List (RelationDecl × List (List String × Bool))

/-- Constant interpretation table: per constant, the element it denotes. -/
abbrev CT := List (ConstantDecl × String)

/-- Function interpretation table: per function, the list of (argument
tuple, value) pairs. -/
abbrev FT := List (FunctionDecl × List (List String × String))

/-- A logic.Trace as consumed by json_counterexample: the epoch keys (one
per step), the universe of each sort, the interpretations of the immutable
symbols (given once), and the per-step interpretations of the mutable
symbols (one table per key). -/
structure Trace where
  keys : List String
  univs : List (SortDecl × List String)
  immut_rel_interps : RT
  immut_const_interps : CT
  immut_func_interps : FT
  rel_interps : List RT
  const_interps : List CT
  func_interps : List FT

/-- Embedding of the state_json helper nested in json_counterexample
(mypyvy.py lines 219-250): one state's relations (only the true tuples are
listed), constants, and functions. -/
def state_json (r : RT) (c : CT) (f : FT) : JSONVal :=
  JSONVal.obj
    [("relations", JSONVal.arr (r.map (fun rd =>
        JSONVal.obj
          [("name", JSONVal.str rd.1.name),
           ("interpretation", JSONVal.arr
             ((rd.2.filter (fun tb => tb.2)).map
               (fun tb => JSONVal.arr (tb.1.map JSONVal.str))))]))),
     ("constants", JSONVal.arr (c.map (fun cd =>
        JSONVal.obj
          [("name", JSONVal.str cd.1.name),
           ("interpretation", JSONVal.str cd.2)]))),
     ("functions", JSONVal.arr (f.map (fun fd =>
        JSONVal.obj
          [("name", JSONVal.str fd.1.name),
           ("interpretation", JSONVal.arr (fd.2.map
             (fun tv => JSONVal.arr [JSONVal.arr (tv.1.map JSONVal.str),
                                     JSONVal.str tv.2])))])))]

/-- Embedding of json_counterexample (mypyvy.py lines 184-263). The result
argument is the invariant, the trace, and, when the counterexample is a
counterexample to induction, the name of the offending transition (the
three-element tuple case of the source; the two-element case carries none). -/
def json_counterexample (inv : InvariantDecl) (trace : Trace) (ition : Option String) : JSONVal :=
  JSONVal.obj (
    [("type", JSONVal.str (match ition with | none => "init" | some _ => "cti"))]
    ++ (match ition with | none => [] | some n => [("transition", JSONVal.str n)])
    ++ [("invariant", JSONVal.obj (
          (match inv.name with | none => [] | some n => [("name", JSONVal.str n)])
          ++ (match inv.lineno with | none => [] | some ln => [("line_number", JSONVal.nat ln)])
          ++ [("formula", JSONVal.str inv.formula)]))]
    ++ [("universes", JSONVal.arr (trace.univs.map (fun su =>
          JSONVal.obj [("sort", JSONVal.str su.1.name),
                       ("elements", JSONVal.arr (su.2.map JSONVal.str))])))]
    ++ [("immutable", state_json trace.immut_rel_interps
                                 trace.immut_const_interps
                                 trace.immut_func_interps)]
    ++ [("mutable", JSONVal.arr ((List.range trace.keys.length).map (fun i =>
          state_json (trace.rel_interps.getD i [])
                     (trace.const_interps.getD i [])
                     (trace.func_interps.getD i []))))])

/-- A counterexample as returned by logic.check_init (no transition) or
logic.check_transitions (with the offending transition's name). -/
structure VerifyCex where
  inv : InvariantDecl
  trace : Trace
  ition : Option String

/-- JSON rendering of a counterexample result tuple. -/
def cexToJson (c : VerifyCex) : JSONVal := json_counterexample c.inv c.trace c.ition

/-- Observable events of the verify subcommand. -/
inductive VEvent
  | jsonDump (j : JSONVal)
  | alwaysPrint (msg : String)
  | errorExit (msg : String)

/-- Arguments of the verify subcommand that the embedded fragment reads:
the automaton mode (yes, no or only) and the json flag. -/
structure VerifyArgs where
  automaton : String
  json : Bool

/-- Embedding of verify (mypyvy.py lines 265-296). Inputs beyond the parsed
arguments: whether the file declares an automaton, the events that
check_automaton_full would print, the results of logic.check_init and
logic.check_transitions (none means the corresponding check passed), and
whether the error count increased during the run. The json_cex value is
computed only when a counterexample exists and the json flag is set, and
the assembled object is dumped only inside that branch, exactly as in the
source. -/
def verify_events (args : VerifyArgs) (hasAutomaton : Bool) (autoEvents : List VEvent)
    (init_res tr_res : Option VerifyCex) (errorsDuring : Bool) : List VEvent :=
  if hasAutomaton = false ∧ args.automaton = "only" then
    [VEvent.errorExit "--automaton=only requires the file to declare an automaton"]
  else
    (if hasAutomaton = true ∧ args.automaton ≠ "no" then autoEvents else [])
    ++ (if args.automaton ≠ "only" then
          let res : Option VerifyCex :=
            match init_res with
            | some r => some r
            | none => tr_res
          let json_cex : Option JSONVal :=
            match res with
            | some r => if args.json then some (cexToJson r) else none
            | none => none
          let obj : JSONVal := JSONVal.obj
            ([("version", JSONVal.nat 1),
              ("subcommand", JSONVal.str "verify"),
              ("is_inductive", JSONVal.bool json_cex.isNone)]
             ++ (match json_cex with
                 | some cex => [("counterexample", cex)]
                 | none => []))
          match json_cex with
          | some _ => [VEvent.jsonDump obj]
          | none => []
        else [])
    ++ [VEvent.alwaysPrint (if errorsDuring then "program has errors." else "all ok!")]

/-- Modelled from the spec: the terminal states of the updr search loop as
delivered to reporting (updr.py is not among the provided sources): either
Proved carrying the final inductive predicate set, or Disproved carrying the
full counterexample trace. -/
inductive UpdrResult (P St : Type)
  | proved (inv : List P)
  | disproved (trace : List St)

/-- Observable logging events of the updr driver and search loop. -/
inductive OutEvent
  | logMsg (msg : String)
  | printMsg (msg : String)
  deriving DecidableEq

/-- Modelled from the spec: the user-visible reporting of the search loop's
terminal state (the printing lives inside updr.Frames.search, which is not
among the provided sources): on Proved every predicate of the final
inductive set is printed; on Disproved every state of the counterexample
trace is printed. -/
def updr_report {P St : Type} (showP : P → String) (showSt : St → String) :
    UpdrResult P St → List OutEvent
  | UpdrResult.proved inv => inv.map (fun p => OutEvent.printMsg (showP p))
  | UpdrResult.disproved tr => tr.map (fun st => OutEvent.printMsg (showSt st))

/-- Arguments of the updr subcommand read by do_updr: the
use-z3-unsat-cores flag and the optional checkpoint-in file name. -/
structure UpdrArgs where
  use_z3_unsat_cores : Bool
  checkpoint_in : Option String

/-- The actions do_updr performs, in order. -/
inductive DriverStep
  | setCoreMinimizeParam
  | checkInitSafetyOnly
  | buildFreshFrames
  | loadFramesFrom (file : String)
  | runSearch
  | logStateCount
  | logPredicateCount
  deriving DecidableEq

/-- Embedding of do_updr (mypyvy.py lines 48-66): configure core
minimization when asked, check the initial state against safety, construct
the Frames object fresh (updr.Frames, seeded per the spec from the
program's init and safety formulas) or load it from the checkpoint file
(updr.load_frames), run the search, and log the state and predicate
counters. Python truthiness: an absent or empty checkpoint-in string builds
fresh frames. -/
def do_updr_steps (args : UpdrArgs) : List DriverStep :=
  (if args.use_z3_unsat_cores then [DriverStep.setCoreMinimizeParam] else [])
  ++ [DriverStep.checkInitSafetyOnly]
  ++ (match args.checkpoint_in with
      | none => [DriverStep.buildFreshFrames]
      | some f =>
          if f = "" then [DriverStep.buildFreshFrames]
          else [DriverStep.loadFramesFrom f])
  ++ [DriverStep.runSearch, DriverStep.logStateCount, DriverStep.logPredicateCount]

/-- Modelled from the spec and do_updr lines 59-64: how a run of
updr.Frames.search (not among the provided sources) comes back to its
caller: either it returns (carrying a terminal result), or it raises the
updr.AbstractCounterexample exception. -/
inductive SearchOutcome (P St : Type)
  | returned (r : UpdrResult P St)
  | abstractCexRaised

/-- Whether do_updr finishes normally or lets an exception escape. -/
inductive DriverCompletion
  | completedNormally
  | propagatedException

/-- Embedding of the try/except around fs.search() in do_updr (mypyvy.py
lines 59-64): an AbstractCounterexample raised by the search loop is caught
and suppressed (the except branch is pass), and a normal return also
completes normally. -/
def do_updr_handleOutcome {P St : Type} : SearchOutcome P St → DriverCompletion
  | SearchOutcome.returned _ => DriverCompletion.completedNormally
  | SearchOutcome.abstractCexRaised => DriverCompletion.completedNormally

/-- Arguments of main read by the embedded fragment. -/
structure MainArgs where
  print_cmdline : Bool
  seed : Nat
  timeout : Option Nat
  subcommand : String

/-- The actions main performs, in order. -/
inductive MainStep
  | setMemLimit (softBytes hardBytes : Nat)
  | parseCommandLine
  | configureLogging
  | printCmdline
  | setSeed (n : Nat)
  | setSolverTimeout (ms : Nat)
  | parseFile
  | resolveProgram
  | runSubcommand (name : String)
  | exitWith (code : Nat)
  deriving DecidableEq

/-- How many errors are reported during each phase of a run (utils
print_error increments a global error count; it starts at zero). -/
structure RunOutcome where
  parseErrors : Nat
  resolveErrors : Nat
  subcommandErrors : Nat

/-- Embedding of main (mypyvy.py lines 804-881): the address-space resource
limit is set first, before argument parsing and any other work; then the
command line is parsed, logging configured, the seed and optional solver
timeout set, the input file parsed (exiting with status 1 if the error
count rose), the program resolved (again exiting with status 1 on new
errors), the selected subcommand run, and finally the process exits with
status 1 exactly when the error count is positive, else 0. -/
def main_steps (args : MainArgs) (run : RunOutcome) : List MainStep :=
  [MainStep.setMemLimit (90 * 10 ^ 9) (90 * 10 ^ 9),
   MainStep.parseCommandLine,
   MainStep.configureLogging]
  ++ (if args.print_cmdline then [MainStep.printCmdline] else [])
  ++ [MainStep.setSeed args.seed]
  ++ (match args.timeout with
      | none => []
      | some t => [MainStep.setSolverTimeout t])
  ++ [MainStep.parseFile]
  ++ (if run.parseErrors > 0 then [MainStep.exitWith 1]
      else
        [MainStep.resolveProgram]
        ++ (if run.resolveErrors > 0 then [MainStep.exitWith 1]
            else
              [MainStep.runSubcommand args.subcommand,
               MainStep.exitWith
                 (if run.parseErrors + run.resolveErrors + run.subcommandErrors > 0
                  then 1 else 0)]))

/-- The exit status of a run of main, as a function of the errors reported
in each phase. -/
def main_exitCode (run : RunOutcome) : Nat :=
  if run.parseErrors > 0 then 1
  else if run.resolveErrors > 0 then 1
  else if run.parseErrors + run.resolveErrors + run.subcommandErrors > 0 then 1 else 0

/-- Whether a step sets the process memory limit. -/
def isSetMemLimit : MainStep → Bool
  | MainStep.setMemLimit _ _ => true
  | _ => false

/-- Observable events of the bmc subcommand: the two header lines, one
query event per call to logic.check_bmc, and the printed outcomes. -/
inductive BmcEvent
  | headerLine (msg : String)
  | query (k : Nat)
  | printFound
  | printModel (m : String)
  | printNoViolation
  deriving DecidableEq

/-- Embedding of the loop of bmc (mypyvy.py lines 312-320): check each
depth in the given order; at the first satisfiable depth print the
violation when print-counterexample is set and stop; if the list is
exhausted without a violation (the else clause of the for) print the
closing message. -/
def bmc_loop (check : Nat → Option String) (pcex : Bool) : List Nat → List BmcEvent
  | [] => [BmcEvent.printNoViolation]
  | k :: rest =>
      BmcEvent.query k ::
      (match check k with
       | some m => if pcex then [BmcEvent.printFound, BmcEvent.printModel m] else []
       | none => bmc_loop check pcex rest)

/-- Embedding of bmc (mypyvy.py lines 303-320): print the header naming the
depth bound and the property, then run the loop over depths 0 through the
depth flag inclusive, in increasing order. -/
def bmc_events (check : Nat → Option String) (depth : Nat) (pcex : Bool)
    (safetyStr : String) : List BmcEvent :=
  BmcEvent.headerLine ("bmc checking the following property up to depth " ++ toString depth)
  :: BmcEvent.headerLine ("  " ++ safetyStr)
  :: bmc_loop check pcex (List.range (depth + 1))

/-- The Frame Manager construction step do_updr performs for the given
arguments: fresh frames when no checkpoint is named (or the name is the
empty string, by Python truthiness), else a restore from the named
checkpoint file. -/
def framesInitStep (args : UpdrArgs) : DriverStep :=
  match args.checkpoint_in with
  | none => DriverStep.buildFreshFrames
  | some f => if f = "" then DriverStep.buildFreshFrames else DriverStep.loadFramesFrom f

/-- Whether a verify event is a JSON dump to stdout. -/
def isJsonDump : VEvent → Bool
  | VEvent.jsonDump _ => true
  | _ => false

/-- Concrete invariant declaration used as a closed input. -/
def inv0 : InvariantDecl := ⟨none, none, "true"⟩

/-- Concrete one-step trace used as a closed input. -/
def trace0 : Trace where
  keys := ["one"]
  univs := [(⟨"node"⟩, ["n0"])]
  immut_rel_interps := []
  immut_const_interps := []
  immut_func_interps := []
  rel_interps := [[(⟨"r"⟩, [(["n0"], true)])]]
  const_interps := [[]]
  func_interps := [[]]

/-- Concrete initiation counterexample used as a closed input. -/
def cex0 : VerifyCex := ⟨inv0, trace0, none⟩

/-- Set-equal predicate lists contain the same predicates. -/
theorem setEqB_mem {P : Type} [DecidableEq P] {a b : List P} (h : setEqB a b = true) :
    ∀ p : P, p ∈ a ↔ p ∈ b := by
  intro p
  simp only [setEqB, Bool.and_eq_true, List.all_eq_true] at h
  constructor
  · intro hp
    simpa using h.1 p hp
  · intro hp
    simpa using h.2 p hp

/-- A set-equal adjacent pair anywhere in the frame sequence makes
adjacentEqual true. -/
theorem adjacentEqual_of_pair {P : Type} [DecidableEq P] :
    ∀ (fs : List (List P)) (i : Nat) (hi : i + 1 < fs.length),
      setEqB (fs.get ⟨i, Nat.lt_of_succ_lt hi⟩) (fs.get ⟨i + 1, hi⟩) = true →
      adjacentEqual fs = true := by
  intro fs
  induction fs with
  | nil => intro i hi _; simp at hi
  | cons a rest ih =>
    cases rest with
    | nil =>
      intro i hi _
      simp at hi
    | cons b rest2 =>
      intro i hi h
      cases i with
      | zero =>
        have ha : setEqB a b = true := h
        simp [adjacentEqual, ha]
      | succ j =>
        have hj : j + 1 < (b :: rest2).length := by
          simpa using Nat.lt_of_succ_lt_succ hi
        have h2 := ih j hj h
        simp [adjacentEqual, h2]

/-- C1: if at any point two adjacent frames have set-equal predicate sets,
the search reports Proved, and the conjunction of that frame's predicates is
an inductive invariant: it implies the safety property, holds in every
initial state, and is preserved by every transition. The hypotheses are the
frame invariants the search maintains per the specification: every frame
predicate holds in every initial state, consecutive frames satisfy
consecution, and every frame excludes unsafe states (the candidate safety
check has passed on every frame). -/
theorem updr_fixpoint_reports_proved_and_inductive
    {σ P : Type} [DecidableEq P] (TS : TransitionSystem σ) (sat : σ → P → Prop)
    (fs : List (List P)) (i : Nat) (hi : i + 1 < fs.length)
    (heq : setEqB (fs.get ⟨i, Nat.lt_of_succ_lt hi⟩) (fs.get ⟨i + 1, hi⟩) = true)
    (hinit : ∀ j (hj : j < fs.length), ∀ p ∈ fs.get ⟨j, hj⟩, ∀ s, TS.init s → sat s p)
    (hcons : ∀ j (hj : j + 1 < fs.length), ∀ s s' : σ,
        frameSat sat s (fs.get ⟨j, Nat.lt_of_succ_lt hj⟩) → TS.tr s s' →
        frameSat sat s' (fs.get ⟨j + 1, hj⟩))
    (hsafe : ∀ j (hj : j < fs.length), ∀ s : σ,
        frameSat sat s (fs.get ⟨j, hj⟩) → TS.safe s) :
    updrFixpointVerdict fs = UpdrVerdict.Proved ∧
    (∀ s, frameSat sat s (fs.get ⟨i, Nat.lt_of_succ_lt hi⟩) → TS.safe s) ∧
    (∀ s, TS.init s → frameSat sat s (fs.get ⟨i, Nat.lt_of_succ_lt hi⟩)) ∧
    (∀ s s', frameSat sat s (fs.get ⟨i, Nat.lt_of_succ_lt hi⟩) → TS.tr s s' →
        frameSat sat s' (fs.get ⟨i, Nat.lt_of_succ_lt hi⟩)) := by
  refine ⟨?_, ?_, ?_, ?_⟩
  · unfold updrFixpointVerdict
    rw [adjacentEqual_of_pair fs i hi heq]
    rfl
  · exact hsafe i (Nat.lt_of_succ_lt hi)
  · intro s hs p hp
    exact hinit i (Nat.lt_of_succ_lt hi) p hp s hs
  · intro s s' hfs htr p hp
    have hnext := hcons i hi s s' hfs htr
    exact hnext p ((setEqB_mem heq p).1 hp)

/-- Witness for C1: the one-bit system with the frame sequence whose two
frames both hold exactly predicate 0, where the hypotheses of the fixpoint
law hold and the conclusion follows by applying it. -/
theorem updr_fixpoint_witness :
    setEqB ([0] : List Nat) [0] = true ∧
    (updrFixpointVerdict ([[0], [0]] : List (List Nat)) = UpdrVerdict.Proved ∧
     (∀ s, frameSat boolSat s [0] → boolTS.safe s) ∧
     (∀ s, boolTS.init s → frameSat boolSat s [0]) ∧
     (∀ s s', frameSat boolSat s [0] → boolTS.tr s s' → frameSat boolSat s' [0])) := by
  refine ⟨by decide, ?_⟩
  exact updr_fixpoint_reports_proved_and_inductive boolTS boolSat [[0], [0]] 0
    (by decide)
    (by decide)
    (fun j hj p hp s hs => hs)
    (fun j hj s s' hf htr => by
      have hj0 : j = 0 := by
        have : j + 1 < 2 := by simpa using hj
        omega
      subst hj0
      intro p hp
      have h0 : boolSat s 0 := hf 0 (show (0 : Nat) ∈ [0] by decide)
      show s' = true
      have hss : s' = s := htr
      rw [hss]
      exact h0)
    (fun j hj s hf => by
      have hj2 : j < 2 := by simpa using hj
      show s = true
      interval_cases j
      · exact hf 0 (show (0 : Nat) ∈ [0] by decide)
      · exact hf 0 (show (0 : Nat) ∈ [0] by decide))

/-- Brute-force minimization only ever returns literals drawn from the kept
accumulator or the remaining literals of the diagram. -/
theorem mem_bruteForceMinimize {L : Type} (check : List L → Bool) :
    ∀ (rest kept : List L) (l : L),
      l ∈ bruteForceMinimize check kept rest → l ∈ kept ∨ l ∈ rest := by
  intro rest
  induction rest with
  | nil =>
    intro kept l h
    exact Or.inl (by simpa [bruteForceMinimize] using h)
  | cons x rest ih =>
    intro kept l h
    unfold bruteForceMinimize at h
    by_cases hc : check (kept ++ rest) = true
    · rw [if_pos hc] at h
      rcases ih kept l h with h1 | h2
      · exact Or.inl h1
      · exact Or.inr (List.mem_cons_of_mem _ h2)
    · rw [if_neg hc] at h
      rcases ih (kept ++ [x]) l h with h1 | h2
      · rcases List.mem_append.1 h1 with ha | hb
        · exact Or.inl ha
        · exact Or.inr (by simpa using Or.inl (List.mem_singleton.1 hb))
      · exact Or.inr (List.mem_cons_of_mem _ h2)

/-- C4: for every diagram of a bad state, the predicate returned by
generalize is a sound blocking clause: it never permits the originating bad
state, whichever of the two minimization strategies (brute-force
literal-removal retry, or unsat-core-directed removal as selected by the
use-z3-unsat-cores option) is used, for every check oracle and every
reported core. -/
theorem generalize_blocks_bad_state {σ L : Type} [DecidableEq L]
    (strategy : MinStrategy) (check : List L → Bool) (core : List L)
    (evalLit : σ → L → Bool) (alphabet : List L) (m : σ) :
    blocksState evalLit m (generalize strategy check core evalLit alphabet m) = true := by
  have hdiag : ∀ l ∈ diagram_of evalLit alphabet m, evalLit m l = true := by
    intro l hl
    exact (List.mem_filter.1 hl).2
  cases strategy with
  | bruteForce =>
    simp only [generalize, blocksState, List.all_eq_true]
    intro l hl
    rcases mem_bruteForceMinimize check _ [] l hl with h | h
    · simp at h
    · exact hdiag l h
  | unsatCores =>
    simp only [generalize, blocksState, coreMinimize, List.all_eq_true]
    intro l hl
    exact hdiag l (List.mem_filter.1 hl).1

/-- C2: evidence that the verify subcommand does not emit its
machine-readable JSON result in the proved case. On a run with the json
flag set, the default automaton mode, no declared automaton, and both the
initiation and the consecution check passing (an inductive program), the
only output is the closing all-ok line and no JSON dump occurs; on the same
run with a counterexample, a JSON dump does occur. The dump statement sits
inside the branch taken only when a counterexample was produced, so the
proved verdict is never emitted, contradicting the dead is_inductive field
the code assembles into the object unconditionally. -/
theorem verify_json_silent_when_proved :
    (verify_events ⟨"yes", true⟩ false [] none none false
       = [VEvent.alwaysPrint "all ok!"] ∧
     (verify_events ⟨"yes", true⟩ false [] none none false).countP isJsonDump = 0) ∧
    (verify_events ⟨"yes", true⟩ false [] (some cex0) none true).countP isJsonDump = 1 := by
  exact ⟨⟨rfl, rfl⟩, rfl⟩

/-- C3: the machine-readable counterexample data contains the sort
universes (shared by all steps of the trace, since element identities are
common to the whole model), the immutable symbols' interpretations given
once, and one mutable block per step of the trace holding, per
relation/constant/function, the concrete interpretation at that step. -/
theorem json_counterexample_per_step (inv : InvariantDecl) (trace : Trace) (ition : Option String)
    (hr : trace.rel_interps.length = trace.keys.length)
    (hc : trace.const_interps.length = trace.keys.length)
    (hf : trace.func_interps.length = trace.keys.length) :
    jsonField (json_counterexample inv trace ition) "universes"
      = some (JSONVal.arr (trace.univs.map (fun su =>
          JSONVal.obj [("sort", JSONVal.str su.1.name),
                       ("elements", JSONVal.arr (su.2.map JSONVal.str))]))) ∧
    jsonField (json_counterexample inv trace ition) "immutable"
      = some (state_json trace.immut_rel_interps trace.immut_const_interps
              trace.immut_func_interps) ∧
    ∃ muts : List JSONVal,
      jsonField (json_counterexample inv trace ition) "mutable" = some (JSONVal.arr muts) ∧
      muts.length = trace.keys.length ∧
      ∀ i (hi : i < trace.keys.length),
        muts.getD i (JSONVal.nat 0)
          = state_json (trace.rel_interps.get ⟨i, hr.symm ▸ hi⟩)
                       (trace.const_interps.get ⟨i, hc.symm ▸ hi⟩)
                       (trace.func_interps.get ⟨i, hf.symm ▸ hi⟩) := by
  refine ⟨?_, ?_, ?_⟩
  · cases ition <;> rfl
  · cases ition <;> rfl
  · refine ⟨(List.range trace.keys.length).map (fun i =>
      state_json (trace.rel_interps.getD i []) (trace.const_interps.getD i [])
                 (trace.func_interps.getD i [])), ?_, ?_, ?_⟩
    · cases ition <;> rfl
    · simp
    · intro i hi
      have hget : ((List.range trace.keys.length).map (fun i =>
          state_json (trace.rel_interps.getD i []) (trace.const_interps.getD i [])
                     (trace.func_interps.getD i []))).get? i
          = some (state_json (trace.rel_interps.getD i []) (trace.const_interps.getD i [])
                     (trace.func_interps.getD i [])) := by
        rw [List.get?_map, List.get?_range hi]
        rfl
      rw [List.getD_eq_get?, hget]
      simp only [Option.getD_some]
      congr 1
      · rw [List.getD_eq_get?, List.get?_eq_get (hr.symm ▸ hi)]
        rfl
      · rw [List.getD_eq_get?, List.get?_eq_get (hc.symm ▸ hi)]
        rfl
      · rw [List.getD_eq_get?, List.get?_eq_get (hf.symm ▸ hi)]
        rfl

/-- Witness for C3: the concrete one-step trace satisfies the length
hypotheses, and the theorem applied there yields the universes and
immutable fields of its JSON rendering. -/
theorem json_counterexample_per_step_witness :
    (trace0.rel_interps.length = trace0.keys.length ∧
     trace0.const_interps.length = trace0.keys.length ∧
     trace0.func_interps.length = trace0.keys.length) ∧
    jsonField (json_counterexample inv0 trace0 none) "universes"
      = some (JSONVal.arr (trace0.univs.map (fun su =>
          JSONVal.obj [("sort", JSONVal.str su.1.name),
                       ("elements", JSONVal.arr (su.2.map JSONVal.str))]))) ∧
    jsonField (json_counterexample inv0 trace0 none) "immutable"
      = some (state_json trace0.immut_rel_interps trace0.immut_const_interps
              trace0.immut_func_interps) :=
  ⟨⟨rfl, rfl, rfl⟩,
   (json_counterexample_per_step inv0 trace0 none rfl rfl rfl).1,
   (json_counterexample_per_step inv0 trace0 none rfl rfl rfl).2.1⟩

/-- C5: when the updr search terminates with Proved the user-visible output
prints every predicate of the final inductive predicate set, and when it
terminates with Disproved it prints every state of the counterexample
trace. -/
theorem updr_report_prints_result {P St : Type} (showP : P → String) (showSt : St → String)
    (r : UpdrResult P St) :
    (∀ inv, r = UpdrResult.proved inv →
       ∀ p ∈ inv, OutEvent.printMsg (showP p) ∈ updr_report showP showSt r) ∧
    (∀ tr, r = UpdrResult.disproved tr →
       ∀ st ∈ tr, OutEvent.printMsg (showSt st) ∈ updr_report showP showSt r) := by
  constructor
  · intro inv hr p hp
    subst hr
    simp only [updr_report, List.mem_map]
    exact ⟨p, hp, rfl⟩
  · intro tr hr st hst
    subst hr
    simp only [updr_report, List.mem_map]
    exact ⟨st, hst, rfl⟩

/-- Witness for C5: a Proved result carrying the one-predicate set prints
that predicate. -/
theorem updr_report_witness :
    ((UpdrResult.proved [7] : UpdrResult Nat Nat) = UpdrResult.proved [7] ∧ (7 : Nat) ∈ [7]) ∧
    OutEvent.printMsg "7"
      ∈ updr_report (fun n : Nat => toString n) (fun n : Nat => toString n)
          (UpdrResult.proved [7]) :=
  ⟨⟨rfl, by decide⟩,
   (updr_report_prints_result (fun n : Nat => toString n) (fun n : Nat => toString n)
      (UpdrResult.proved [7])).1 [7] rfl 7 (by decide)⟩

/-- C6: on every updr invocation the driver performs exactly one Frame
Manager construction step, fresh when no checkpoint is named and a restore
from the named file otherwise, and the search loop is invoked after it in
both cases; per the modelled search result type the loop's terminal states
are Proved or Disproved. -/
theorem do_updr_frames_then_search (args : UpdrArgs) :
    (∃ pre post,
       do_updr_steps args = pre ++ framesInitStep args :: post ∧
       DriverStep.runSearch ∉ pre ∧
       DriverStep.buildFreshFrames ∉ pre ∧ (∀ f, DriverStep.loadFramesFrom f ∉ pre) ∧
       DriverStep.buildFreshFrames ∉ post ∧ (∀ f, DriverStep.loadFramesFrom f ∉ post) ∧
       DriverStep.runSearch ∈ post) ∧
    (args.checkpoint_in = none → framesInitStep args = DriverStep.buildFreshFrames) ∧
    (∀ f, args.checkpoint_in = some f → f ≠ "" →
       framesInitStep args = DriverStep.loadFramesFrom f) ∧
    (∀ r : UpdrResult Nat Nat,
       (∃ inv, r = UpdrResult.proved inv) ∨ (∃ tr, r = UpdrResult.disproved tr)) := by
  rcases args with ⟨u, ci⟩
  refine ⟨?_, ?_, ?_, ?_⟩
  · refine ⟨(if u then [DriverStep.setCoreMinimizeParam] else [])
        ++ [DriverStep.checkInitSafetyOnly],
      [DriverStep.runSearch, DriverStep.logStateCount, DriverStep.logPredicateCount],
      ?_, ?_, ?_, ?_, ?_, ?_, ?_⟩
    · cases ci with
      | none => cases u <;> rfl
      | some f =>
        by_cases hf : f = "" <;>
          cases u <;>
            simp [do_updr_steps, framesInitStep, hf]
    · cases u <;> decide
    · cases u <;> decide
    · intro f
      cases u <;> simp
    · decide
    · intro f
      simp
    · decide
  · intro h
    subst h
    rfl
  · intro f h hne
    subst h
    simp [framesInitStep, hne]
  · intro r
    cases r with
    | proved inv => exact Or.inl ⟨inv, rfl⟩
    | disproved tr => exact Or.inr ⟨tr, rfl⟩

/-- Witness for C6: with no checkpoint argument the construction step is a
fresh Frame Manager. -/
theorem do_updr_frames_then_search_witness :
    (UpdrArgs.mk true none).checkpoint_in = none ∧
    framesInitStep (UpdrArgs.mk true none) = DriverStep.buildFreshFrames :=
  ⟨rfl, (do_updr_frames_then_search (UpdrArgs.mk true none)).2.1 rfl⟩

/-- C7 counterexample: the run of the search loop that discovers an
abstract counterexample reaches do_updr as the raised
AbstractCounterexample exception, which the driver's except clause catches
and suppresses; that outcome is not a returned Disproved value, so
counterexample discovery is not communicated purely as an explicit terminal
search-state value returned from the loop. -/
theorem abstract_cex_is_exception_not_value :
    do_updr_handleOutcome (SearchOutcome.abstractCexRaised : SearchOutcome Nat Nat)
      = DriverCompletion.completedNormally ∧
    (SearchOutcome.abstractCexRaised : SearchOutcome Nat Nat)
      ≠ SearchOutcome.returned (UpdrResult.disproved ([] : List Nat)) := by
  refine ⟨rfl, ?_⟩
  intro h
  cases h

/-- C7 amended: abstract-counterexample discovery is communicated to
do_updr by the raised AbstractCounterexample exception; do_updr catches it
(and every other outcome of the search) and completes normally rather than
propagating it. -/
theorem do_updr_catches_abstract_cex (P St : Type) (o : SearchOutcome P St) :
    do_updr_handleOutcome o = DriverCompletion.completedNormally := by
  cases o <;> rfl

/-- C8: main establishes the hard process-wide memory ceiling (the
address-space rlimit, soft and hard both 90 gigabytes) as its very first
action, before argument parsing, before the input is read and before the
subcommand that does the search work runs, and it is the only
memory-management action of the run: there is no later adjustment,
reclamation or eviction step. -/
theorem memlimit_set_first_and_once (args : MainArgs) (run : RunOutcome) :
    (main_steps args run).head? = some (MainStep.setMemLimit (90 * 10 ^ 9) (90 * 10 ^ 9)) ∧
    (main_steps args run).countP isSetMemLimit = 1 := by
  constructor
  · rfl
  · rcases args with ⟨pc, seed, tmo, sub⟩
    simp only [main_steps]
    by_cases hp : run.parseErrors > 0 <;> by_cases hrv : run.resolveErrors > 0 <;>
      cases pc <;> cases tmo <;>
        simp [hp, hrv, List.countP_append, List.countP_cons, isSetMemLimit]

/-- C9: the process exits with status 1 exactly when at least one error was
reported during parsing, resolution, or the subcommand run (with the early
exits on syntax and resolution errors carrying status 1 and skipping the
subcommand), and with status 0 exactly when no error was reported. -/
theorem main_exit_status (args : MainArgs) (run : RunOutcome) :
    (main_steps args run).getLast? = some (MainStep.exitWith (main_exitCode run)) ∧
    (main_exitCode run = 1 ↔
       0 < run.parseErrors + run.resolveErrors + run.subcommandErrors) ∧
    (main_exitCode run = 0 ↔
       run.parseErrors + run.resolveErrors + run.subcommandErrors = 0) ∧
    (MainStep.runSubcommand args.subcommand ∈ main_steps args run ↔
       run.parseErrors = 0 ∧ run.resolveErrors = 0) := by
  refine ⟨?_, ?_, ?_, ?_⟩
  · rcases args with ⟨pc, seed, tmo, sub⟩
    simp only [main_steps, main_exitCode]
    by_cases hp : run.parseErrors > 0 <;> by_cases hrv : run.resolveErrors > 0 <;>
      cases pc <;> cases tmo <;>
        simp [hp, hrv, List.getLast?_append, List.getLast?]
  · unfold main_exitCode
    split_ifs <;> constructor <;> intro h <;> first | exact h.elim | omega
  · unfold main_exitCode
    split_ifs <;> constructor <;> intro h <;> first | exact h.elim | omega
  · rcases args with ⟨pc, seed, tmo, sub⟩
    simp only [main_steps]
    by_cases hp : run.parseErrors > 0 <;> by_cases hrv : run.resolveErrors > 0 <;>
      cases pc <;> cases tmo <;>
        simp [hp, hrv] <;> omega

/-- Helper for C10: when no depth in the checked range is satisfiable, the
loop queries every depth in order and falls through to the closing
message. -/
theorem bmc_loop_all_none (check : Nat → Option String) (pcex : Bool) :
    ∀ (n a : Nat), (∀ k, a ≤ k → k < a + n → check k = none) →
      bmc_loop check pcex (List.range' a n)
        = (List.range' a n).map BmcEvent.query ++ [BmcEvent.printNoViolation] := by
  intro n
  induction n with
  | zero =>
    intro a _
    simp [bmc_loop]
  | succ m ih =>
    intro a h
    rw [List.range'_succ a m 1]
    have ha : check a = none := h a (Nat.le_refl a) (by omega)
    simp only [bmc_loop, ha, List.map_cons]
    rw [ih (a + 1) (fun k hk1 hk2 => h k (by omega) (by omega))]
    rfl

/-- Helper for C10: when the first satisfiable depth in the checked range is
k0, the loop queries exactly the depths up to k0 in order, prints the
violation when asked, and stops. -/
theorem bmc_loop_found (check : Nat → Option String) (pcex : Bool) (mdl : String) :
    ∀ (n a k0 : Nat), a ≤ k0 → k0 < a + n → check k0 = some mdl →
      (∀ k, a ≤ k → k < k0 → check k = none) →
      bmc_loop check pcex (List.range' a n)
        = (List.range' a (k0 - a + 1)).map BmcEvent.query
          ++ (if pcex then [BmcEvent.printFound, BmcEvent.printModel mdl] else []) := by
  intro n
  induction n with
  | zero =>
    intro a k0 h1 h2 _ _
    omega
  | succ nn ih =>
    intro a k0 h1 h2 hk hnone
    rw [List.range'_succ a nn 1]
    by_cases hak : k0 = a
    · subst hak
      simp only [bmc_loop, hk]
      rw [show k0 - k0 + 1 = 1 from by omega]
      rfl
    · have hlt : a < k0 := by omega
      have ha : check a = none := hnone a (Nat.le_refl a) hlt
      simp only [bmc_loop, ha, List.map_cons]
      rw [ih (a + 1) k0 (by omega) (by omega) hk (fun k hk1 hk2 => hnone k (by omega) hk2)]
      rw [show k0 - a + 1 = (k0 - (a + 1) + 1) + 1 from by omega,
          List.range'_succ a (k0 - (a + 1) + 1) 1]
      rfl

/-- C10: for every depth flag value, the bmc subcommand prints its header,
checks bounded traces of length 0, 1, ..., depth inclusive in increasing
order, stops at the first satisfiable depth (printing the violation exactly
when print-counterexample is set), and prints the no-violation closing
message exactly when no depth in the range yields a violation. -/
theorem bmc_checks_depths_in_order (check : Nat → Option String) (N : Nat) (pcex : Bool)
    (sstr : String) :
    ((∀ k, k ≤ N → check k = none) →
       bmc_events check N pcex sstr
         = BmcEvent.headerLine ("bmc checking the following property up to depth " ++ toString N)
           :: BmcEvent.headerLine ("  " ++ sstr)
           :: ((List.range (N + 1)).map BmcEvent.query ++ [BmcEvent.printNoViolation])) ∧
    (∀ k0 mdl, k0 ≤ N → check k0 = some mdl → (∀ k, k < k0 → check k = none) →
       bmc_events check N pcex sstr
         = BmcEvent.headerLine ("bmc checking the following property up to depth " ++ toString N)
           :: BmcEvent.headerLine ("  " ++ sstr)
           :: ((List.range (k0 + 1)).map BmcEvent.query
               ++ (if pcex then [BmcEvent.printFound, BmcEvent.printModel mdl] else []))) := by
  constructor
  · intro h
    unfold bmc_events
    rw [List.range_eq_range' (N + 1)]
    rw [bmc_loop_all_none check pcex (N + 1) 0 (fun k _ hk2 => h k (by omega))]
  · intro k0 mdl hk0 hck hnone
    unfold bmc_events
    rw [List.range_eq_range' (N + 1)]
    rw [bmc_loop_found check pcex mdl (N + 1) 0 k0 (Nat.zero_le k0) (by omega) hck
        (fun k _ hk2 => hnone k hk2)]
    rw [show k0 - 0 + 1 = k0 + 1 from by omega, ← List.range_eq_range' (k0 + 1)]

/-- Witness for C10: with a check that is unsatisfiable at every depth and
depth flag 1, the run queries depths 0 and 1 and prints the no-violation
message. -/
theorem bmc_checks_witness :
    (∀ k, k ≤ 1 → (fun _ : Nat => (none : Option String)) k = none) ∧
    bmc_events (fun _ : Nat => (none : Option String)) 1 true "safety"
      = BmcEvent.headerLine ("bmc checking the following property up to depth " ++ toString 1)
        :: BmcEvent.headerLine ("  " ++ "safety")
        :: ((List.range 2).map BmcEvent.query ++ [BmcEvent.printNoViolation]) :=
  ⟨fun _ _ => rfl,
   (bmc_checks_depths_in_order (fun _ : Nat => (none : Option String)) 1 true "safety").1
     (fun _ _ => rfl)⟩

/-- Witness for C9: an error-free run exits with status 0. -/
theorem main_exit_status_witness :
    main_exitCode (RunOutcome.mk 0 0 0) = 0 :=
  (main_exit_status (MainArgs.mk false 0 none "verify") (RunOutcome.mk 0 0 0)).2.2.1.mpr rfl
